import Mathlib

/-!
h2oci: HTTP gateway in front of an OCI registry

Shallow embedding of `src/main.go` (the handlers `serve` and `basicAuth`, and
their composition in `main`).

Modelling conventions.

* Go strings are Lean `String`s; `strings.HasSuffix`, `strings.TrimSuffix` and
  `fmt.Sprintf` with `%s` verbs are written out on the character lists. Go
  works on bytes; on UTF-8 text and with the ASCII suffixes of `serve` the two
  views give the same answers.
* A handler is a state transformer: the state holds the `http.ResponseWriter`
  of the request in flight and the log of every target handed to `crane.Pull`.
* The registry (`crane.Pull`, `img.Layers`, `layer.Compressed`) and
  `sha256.Sum256` are library code outside the repository; they are parameters
  of the handlers.
* A compressed layer stream reads from the bytes of the layer and may end in
  a read error before `io.EOF`; the client connection may stop taking bytes.
  `io.Copy` stops at the first of the two, and `serve` discards its error.
* Logging (`slog`) has no effect on the response and is left out.
-/

namespace H2oci

/-! ## Library functions used by the handlers -/

/-- Go `strings.HasSuffix`:
`len(s) >= len(suffix) && s[len(s)-len(suffix):] == suffix`. -/
def HasSuffix (s suffix : String) : Bool :=
  decide (suffix.data.length ≤ s.data.length) &&
    (s.data.drop (s.data.length - suffix.data.length) == suffix.data)

/-- Go `strings.TrimSuffix`:
`if HasSuffix(s, suffix) { return s[:len(s)-len(suffix)] }; return s`. -/
def TrimSuffix (s suffix : String) : String :=
  if HasSuffix s suffix then
    String.mk (s.data.take (s.data.length - suffix.data.length))
  else s

/-- Go `url.Values` after `req.URL.Query()`: the decoded `key=value` pairs of
the query string, in the order in which they appear. -/
abbrev Values := List (String × String)

/-- Go `v[key]`: the values stored under `key`, in order of appearance. -/
def Values.lookup (v : Values) (key : String) : List String :=
  (v.filter (fun kv => kv.1 == key)).map (fun kv => kv.2)

/-- Go `url.Values.Get`:
`vs := v[key]; if len(vs) == 0 { return "" }; return vs[0]`. -/
def Values.Get (v : Values) (key : String) : String :=
  match v.lookup key with
  | [] => ""
  | x :: _ => x

/-- Go `subtle.ConstantTimeByteEq` on `uint8` arguments:
`int((uint32(x^y) - 1) >> 31)`. -/
def ConstantTimeByteEq (x y : Nat) : Nat :=
  (((x ^^^ y) % 2 ^ 32 + 2 ^ 32 - 1) % 2 ^ 32) >>> 31

/-- Go `subtle.ConstantTimeCompare`: `0` on a length mismatch, otherwise the
bytewise differences are or-ed into one `byte` that is compared with `0`. -/
def ConstantTimeCompare (x y : List Nat) : Nat :=
  if x.length ≠ y.length then 0
  else
    ConstantTimeByteEq
      ((List.zip x y).foldl (fun v ab => (v ||| (ab.1 ^^^ ab.2)) % 256) 0) 0

/-! ## HTTP data model -/

def MethodGet : String := "GET"
def StatusOK : Nat := 200
def StatusUnauthorized : Nat := 401
def StatusNotFound : Nat := 404
def StatusMethodNotAllowed : Nat := 405
def StatusInternalServerError : Nat := 500

/-- The `Authorization` header of a request as `r.BasicAuth()` sees it. -/
inductive Authorization where
  /-- no `Authorization` header -/
  | missing
  /-- a header that is not a well-formed Basic credential
  (other scheme, bad base64, no colon) -/
  | malformed (raw : String)
  /-- a well-formed `Basic base64(username:password)` header -/
  | basic (username password : String)
deriving DecidableEq, Repr

/-- The fields of `*http.Request` that the handlers read. -/
structure Request where
  /-- `req.Method` -/
  Method : String
  /-- `req.URL.Path` -/
  Path : String
  /-- `req.URL.Query()` -/
  Query : Values
  /-- the `Authorization` header -/
  Auth : Authorization
deriving DecidableEq, Repr

/-- Go `(*http.Request).BasicAuth`: `(username, password, ok)`. -/
def Request.BasicAuth (r : Request) : String × String × Bool :=
  match r.Auth with
  | .missing => ("", "", false)
  | .malformed _ => ("", "", false)
  | .basic u p => (u, p, true)

/-- An `http.ResponseWriter`: every status code passed to `WriteHeader`, in
call order (the first one is the status of the response), and the body bytes
written so far. -/
structure ResponseWriter where
  headers : List Nat
  body : List Nat
deriving DecidableEq, Repr

/-- The status line of the response: the first `WriteHeader` call wins. -/
def ResponseWriter.status (w : ResponseWriter) : Option Nat := w.headers.head?

/-- What a handler can change: the response and the log of registry pulls.
The state also holds what is left of the client connection. -/
structure State where
  w : ResponseWriter
  /-- targets passed to `crane.Pull`, oldest first -/
  pulls : List String
  /-- `some n`: the connection takes `n` more body bytes, then `Write` fails;
  `none`: the client stays connected -/
  room : Option Nat := none
deriving DecidableEq, Repr

/-- The state in which the HTTP server hands a request to the handler. -/
def State.fresh : State := { w := { headers := [], body := [] }, pulls := [] }

/-- Go `w.WriteHeader(code)`. -/
def State.WriteHeader (s : State) (code : Nat) : State :=
  { s with w := { s.w with headers := s.w.headers ++ [code] } }

/-- Go `w.Write(p)`: an implicit `WriteHeader(200)` when no header was written,
then the bytes the connection still takes are appended to the body. The
second component is `true` when `Write` returns an error. -/
def State.Write (s : State) (p : List Nat) : State × Bool :=
  let s1 := if s.w.headers.isEmpty then s.WriteHeader StatusOK else s
  match s1.room with
  | none => ({ s1 with w := { s1.w with body := s1.w.body ++ p } }, false)
  | some n =>
    ({ s1 with w := { s1.w with body := s1.w.body ++ p.take n },
               room := some (n - p.length) },
      decide (n < p.length))

/-- An `io.ReadCloser` over the compressed bytes of a layer. -/
structure ReadCloser where
  /-- the compressed bytes of the layer -/
  src : List Nat
  /-- `some n`: after `n` bytes `Read` returns an error; `none`: the stream is
  read up to `io.EOF` -/
  failAfter : Option Nat
deriving DecidableEq, Repr

/-- The bytes that `Read` hands out before the stream ends. -/
def ReadCloser.yielded (r : ReadCloser) : List Nat :=
  match r.failAfter with
  | none => r.src
  | some n => r.src.take n

/-- Go `io.Copy(w, blob)`: reads until `io.EOF` or the first read error and
writes what was read until the first write error. The second component is
`true` when `io.Copy` returns an error. -/
def State.Copy (s : State) (blob : ReadCloser) : State × Bool :=
  match blob.yielded with
  | [] => (s, blob.failAfter.isSome)
  | b :: bs =>
    match s.Write (b :: bs) with
    | (s1, ew) => (s1, ew || blob.failAfter.isSome)

/-- The part of `p` that a connection with `room` takes. -/
def delivered (room : Option Nat) (p : List Nat) : List Nat :=
  match room with
  | none => p
  | some n => p.take n

/-- Go `http.HandlerFunc`. -/
abbrev HandlerFunc := Request → State → State

/-! ## The registry client -/

/-- A `v1.Layer`: `Compressed()` gives a stream over the compressed bytes of
the layer, or an error. -/
structure Layer where
  Compressed : Except String ReadCloser

/-- A `v1.Image`: `Layers()` gives the layers or an error. -/
structure Image where
  Layers : Except String (List Layer)

/-- The registry as seen through `crane.Pull(target)`. -/
structure Registry where
  Pull : String → Except String Image

/-! ## The handlers of `main.go` -/

/-- Line 49 of `serve`, the condition under the negation:
`strings.HasSuffix(req.URL.Path, ".tgz") || strings.HasSuffix(req.URL.Path, "tar.gz")`. -/
def suffixCheck (path : String) : Bool :=
  HasSuffix path ".tgz" || HasSuffix path "tar.gz"

/-- Lines 61-63 of `serve`: the value of `path` after the two `TrimSuffix`
calls. -/
def strippedPath (path : String) : String :=
  let path := TrimSuffix path ".tgz"
  let path := TrimSuffix path ".tar.gz"
  path

/-- Lines 54-69 of `serve`: the reference handed to `crane.Pull`. -/
def target (upstream : String) (req : Request) : String :=
  let sha := req.Query.Get "sha"
  let tag := req.Query.Get "tag"
  let tag := if tag == "" && sha == "" then "latest" else tag
  let path := strippedPath req.Path
  let target := upstream ++ path ++ ":" ++ tag
  if sha != "" then upstream ++ path ++ "@sha:" ++ sha else target

/-- Go `serve(upstream)`, lines 40-103. -/
def serve (crane : Registry) (upstream : String) : HandlerFunc := fun req s =>
  if req.Method != MethodGet then
    s.WriteHeader StatusMethodNotAllowed
  else if !(suffixCheck req.Path) then
    s.WriteHeader StatusNotFound
  else
    let s := { s with pulls := s.pulls ++ [target upstream req] }
    match crane.Pull (target upstream req) with
    | .error _ => s.WriteHeader StatusInternalServerError
    | .ok img =>
      match img.Layers with
      | .error _ => s.WriteHeader StatusInternalServerError
      | .ok layers =>
        match layers with
        | [] => s.WriteHeader StatusInternalServerError
        | layer0 :: _ =>
          match layer0.Compressed with
          | .error _ => s.WriteHeader StatusInternalServerError
          | .ok blob => ((s.WriteHeader StatusOK).Copy blob).1

/-- Go `basicAuth(expectedUsername, expectedPassword, next)`, lines 105-130.
`Sum256` stands for `sha256.Sum256`. -/
def basicAuth (Sum256 : String → List Nat) (expectedUsername expectedPassword : String)
    (next : HandlerFunc) : HandlerFunc :=
  if expectedUsername == "" && expectedPassword == "" then next
  else
    let expectedUsernameHash := Sum256 expectedUsername
    let expectedPasswordHash := Sum256 expectedPassword
    fun r s =>
      match r.BasicAuth with
      | (username, password, ok) =>
        if ok then
          let usernameHash := Sum256 username
          let passwordHash := Sum256 password
          let usernameMatch := ConstantTimeCompare usernameHash expectedUsernameHash == 1
          let passwordMatch := ConstantTimeCompare passwordHash expectedPasswordHash == 1
          if usernameMatch && passwordMatch then next r s
          else s.WriteHeader StatusUnauthorized
        else s.WriteHeader StatusUnauthorized

/-- Line 35 of `main`: `basicAuth(username, password, serve(upstream))`. -/
def handler (Sum256 : String → List Nat) (crane : Registry)
    (username password upstream : String) : HandlerFunc :=
  basicAuth Sum256 username password (serve crane upstream)

/-! ## Sample collaborators used to instantiate the theorems -/

/-- An injective byte encoding of a character list, three bytes per
character. -/
def encodeChars : List Char → List Nat
  | [] => []
  | c :: cs =>
    (c.toNat / 65536 % 256) :: (c.toNat / 256 % 256) :: (c.toNat % 256) :: encodeChars cs

/-- An injective stand-in for `sha256.Sum256`. -/
def sampleSum256 (s : String) : List Nat := encodeChars s.data

/-- A registry in which every reference resolves to an image with two
layers, both read up to `io.EOF`. -/
def twoLayerRegistry : Registry :=
  { Pull := fun _ => .ok { Layers := .ok [
      { Compressed := .ok { src := [31, 139, 8], failAfter := none } },
      { Compressed := .ok { src := [7, 7], failAfter := none } }] } }

/-- A registry in which every reference resolves to an image whose first
layer has three compressed bytes and a stream that breaks after the first. -/
def brokenStreamRegistry : Registry :=
  { Pull := fun _ => .ok { Layers := .ok [
      { Compressed := .ok { src := [31, 139, 8], failAfter := some 1 } }] } }

/-- A registry in which every reference resolves to an image without layers. -/
def noLayerRegistry : Registry :=
  { Pull := fun _ => .ok { Layers := .ok [] } }

/-- A registry in which every pull fails. -/
def failingRegistry : Registry :=
  { Pull := fun _ => .error "unauthorized" }

/-! ## Facts about the library functions -/

theorem hasSuffix_iff (s suf : String) :
    HasSuffix s suf = true ↔ suf.data <:+ s.data := by
  unfold HasSuffix
  constructor
  · intro h
    simp only [Bool.and_eq_true, decide_eq_true_eq, beq_iff_eq] at h
    rw [← h.2]
    exact List.drop_suffix _ _
  · rintro ⟨t, ht⟩
    simp only [Bool.and_eq_true, decide_eq_true_eq, beq_iff_eq]
    rw [← ht]
    constructor
    · simp
    · simp

theorem trimSuffix_append (s suf : String) (h : HasSuffix s suf = true) :
    TrimSuffix s suf ++ suf = s := by
  have h2 := h
  unfold HasSuffix at h2
  simp only [Bool.and_eq_true, decide_eq_true_eq, beq_iff_eq] at h2
  unfold TrimSuffix
  rw [if_pos h]
  apply String.ext
  rw [String.data_append]
  show List.take (s.data.length - suf.data.length) s.data ++ suf.data = s.data
  have h3 := List.take_append_drop (s.data.length - suf.data.length) s.data
  rw [h2.2] at h3
  exact h3

theorem trimSuffix_of_not (s suf : String) (h : HasSuffix s suf = false) :
    TrimSuffix s suf = s := by
  unfold TrimSuffix
  simp [h]

/-- A path that ends in `.tar.gz` also ends in `tar.gz`, the string that line
49 tests for. -/
theorem hasSuffix_targz_of_dot (s : String) (h : HasSuffix s ".tar.gz" = true) :
    HasSuffix s "tar.gz" = true := by
  rw [hasSuffix_iff] at h ⊢
  exact List.IsSuffix.trans (by decide) h

/-- The two suffixes of the claims both pass the check of line 49. -/
theorem suffixCheck_of_recognized (path : String)
    (h : HasSuffix path ".tgz" = true ∨ HasSuffix path ".tar.gz" = true) :
    suffixCheck path = true := by
  unfold suffixCheck
  rcases h with h | h
  · simp [h]
  · simp [hasSuffix_targz_of_dot path h]

theorem nat_or_eq_zero (a b : Nat) : a ||| b = 0 ↔ a = 0 ∧ b = 0 := by
  constructor
  · intro h
    have key : ∀ i, a.testBit i = false ∧ b.testBit i = false := by
      intro i
      have hi : (a ||| b).testBit i = false := by rw [h]; exact Nat.zero_testBit i
      rw [Nat.testBit_or] at hi
      simpa using hi
    constructor
    · apply Nat.eq_of_testBit_eq
      intro i
      rw [(key i).1, Nat.zero_testBit]
    · apply Nat.eq_of_testBit_eq
      intro i
      rw [(key i).2, Nat.zero_testBit]
  · rintro ⟨rfl, rfl⟩
    rfl

theorem accumulate_eq_zero (v a b : Nat) (hv : v < 256) (ha : a < 256) (hb : b < 256) :
    (v ||| (a ^^^ b)) % 256 = 0 ↔ v = 0 ∧ a = b := by
  have hx : a ^^^ b < 256 := @Nat.xor_lt_two_pow a b 8 ha hb
  have ho : v ||| (a ^^^ b) < 256 := @Nat.or_lt_two_pow v (a ^^^ b) 8 hv hx
  rw [Nat.mod_eq_of_lt ho, nat_or_eq_zero, Nat.xor_eq_zero]

theorem foldl_accumulate_eq_zero :
    ∀ (x y : List Nat) (v : Nat), x.length = y.length →
      (∀ b ∈ x, b < 256) → (∀ b ∈ y, b < 256) → v < 256 →
      ((List.zip x y).foldl (fun v ab => (v ||| (ab.1 ^^^ ab.2)) % 256) v = 0 ↔
        v = 0 ∧ x = y)
  | [], [], v, _, _, _, _ => by simp
  | [], _ :: _, _, h, _, _, _ => by simp at h
  | _ :: _, [], _, h, _, _, _ => by simp at h
  | a :: x, b :: y, v, h, hx, hy, hv => by
    have ha : a < 256 := hx a (List.mem_cons_self _ _)
    have hb : b < 256 := hy b (List.mem_cons_self _ _)
    have hlen : x.length = y.length := by simpa using h
    have ih := foldl_accumulate_eq_zero x y ((v ||| (a ^^^ b)) % 256) hlen
      (fun c hc => hx c (List.mem_cons_of_mem _ hc))
      (fun c hc => hy c (List.mem_cons_of_mem _ hc))
      (Nat.mod_lt _ (by decide))
    simp only [List.zip_cons_cons, List.foldl_cons]
    rw [ih, accumulate_eq_zero v a b hv ha hb]
    constructor
    · rintro ⟨⟨h1, h2⟩, h3⟩
      exact ⟨h1, by rw [h2, h3]⟩
    · rintro ⟨h1, h2⟩
      injection h2 with h2 h3
      exact ⟨⟨h1, h2⟩, h3⟩

theorem foldl_accumulate_lt :
    ∀ (l : List (Nat × Nat)) (v : Nat), v < 256 →
      l.foldl (fun v ab => (v ||| (ab.1 ^^^ ab.2)) % 256) v < 256
  | [], _, hv => by simpa using hv
  | _ :: l, _, _ => by
    simp only [List.foldl_cons]
    exact foldl_accumulate_lt l _ (Nat.mod_lt _ (by decide))

theorem constantTimeByteEq_zero (v : Nat) (hv : v < 256) :
    ConstantTimeByteEq v 0 = 1 ↔ v = 0 := by
  unfold ConstantTimeByteEq
  simp only [Nat.xor_zero, Nat.shiftRight_eq_div_pow]
  constructor
  · intro h
    by_contra hne
    have : (v % 2 ^ 32 + 2 ^ 32 - 1) % 2 ^ 32 = v - 1 := by omega
    rw [this] at h
    omega
  · rintro rfl
    decide

/-- On byte slices `subtle.ConstantTimeCompare` returns `1` exactly when the
slices are equal. -/
theorem constantTimeCompare_eq_one (x y : List Nat)
    (hx : ∀ b ∈ x, b < 256) (hy : ∀ b ∈ y, b < 256) :
    ConstantTimeCompare x y = 1 ↔ x = y := by
  unfold ConstantTimeCompare
  by_cases hlen : x.length = y.length
  · rw [if_neg (not_not.mpr hlen),
      constantTimeByteEq_zero _ (foldl_accumulate_lt _ 0 (by decide)),
      foldl_accumulate_eq_zero x y 0 hlen hx hy (by decide)]
    simp
  · rw [if_pos hlen]
    constructor
    · intro h; exact absurd h (by decide)
    · intro h; exact absurd (congrArg List.length h) hlen

/-! ## Facts about the sample digest -/

theorem char_toNat_lt (c : Char) : c.toNat < 16777216 := by
  have h := c.valid
  unfold Char.toNat
  rcases h with h | h
  · have : c.val.toNat < 55296 := h
    omega
  · have : c.val.toNat < 1114112 := h.2
    omega

theorem char_eq_of_toNat (c d : Char) (h : c.toNat = d.toNat) : c = d := by
  apply Char.ext
  apply UInt32.ext
  exact h

theorem encodeChars_injective :
    ∀ (a b : List Char), encodeChars a = encodeChars b → a = b
  | [], [], _ => rfl
  | [], _ :: _, h => by simp [encodeChars] at h
  | _ :: _, [], h => by simp [encodeChars] at h
  | c :: cs, d :: ds, h => by
    simp only [encodeChars, List.cons.injEq] at h
    obtain ⟨h1, h2, h3, h4⟩ := h
    have hc := char_toNat_lt c
    have hd := char_toNat_lt d
    have hcd : c = d := char_eq_of_toNat c d (by omega)
    rw [hcd, encodeChars_injective cs ds h4]

theorem encodeChars_lt : ∀ (a : List Char), ∀ b ∈ encodeChars a, b < 256
  | [], b, h => by simp [encodeChars] at h
  | c :: cs, b, h => by
    simp only [encodeChars, List.mem_cons] at h
    rcases h with h | h | h | h
    · omega
    · omega
    · omega
    · exact encodeChars_lt cs b h

theorem sampleSum256_injective : Function.Injective sampleSum256 := by
  intro a b h
  exact String.ext (encodeChars_injective a.data b.data h)

theorem sampleSum256_bytes : ∀ x, ∀ b ∈ sampleSum256 x, b < 256 :=
  fun x => encodeChars_lt x.data

/-! ## Facts about the stripped path -/

/-- No path ends in both `.tgz` and `.tar.gz`. -/
theorem not_tgz_of_targz (path : String) (h : HasSuffix path ".tar.gz" = true) :
    HasSuffix path ".tgz" = false := by
  rw [Bool.eq_false_iff]
  intro h2
  rw [hasSuffix_iff] at h h2
  have hs : (".tgz" : String).data <:+ (".tar.gz" : String).data :=
    List.suffix_of_suffix_length_le h2 h (by decide)
  exact absurd hs (by decide)

/-- A path that ends in `.tar.gz` loses exactly that suffix. -/
theorem strippedPath_targz (path : String) (h : HasSuffix path ".tar.gz" = true) :
    strippedPath path ++ ".tar.gz" = path := by
  show TrimSuffix (TrimSuffix path ".tgz") ".tar.gz" ++ ".tar.gz" = path
  rw [trimSuffix_of_not path ".tgz" (not_tgz_of_targz path h)]
  exact trimSuffix_append path ".tar.gz" h

/-- A path that ends in `.tgz` loses exactly that suffix, unless what is left
ends in `.tar.gz`. -/
theorem strippedPath_tgz (path : String) (h : HasSuffix path ".tgz" = true)
    (h2 : HasSuffix (TrimSuffix path ".tgz") ".tar.gz" = false) :
    strippedPath path ++ ".tgz" = path := by
  show TrimSuffix (TrimSuffix path ".tgz") ".tar.gz" ++ ".tgz" = path
  rw [trimSuffix_of_not _ ".tar.gz" h2]
  exact trimSuffix_append path ".tgz" h

/-! ## Facts about `serve` -/

/-- A request that passes both checks ends in one of two ways: one
`WriteHeader(500)`, or `WriteHeader(200)` followed by the copy of a blob. In
both cases exactly one pull was made, for `target upstream req`. -/
theorem serve_accepted (crane : Registry) (upstream : String) (req : Request) (s : State)
    (hget : req.Method = "GET") (hsuf : suffixCheck req.Path = true) :
    serve crane upstream req s =
        ({ s with pulls := s.pulls ++ [target upstream req] } : State).WriteHeader
          StatusInternalServerError ∨
      ∃ blob, serve crane upstream req s =
        ((({ s with pulls := s.pulls ++ [target upstream req] } : State).WriteHeader
          StatusOK).Copy blob).1 := by
  unfold serve
  simp only [hget, hsuf, MethodGet, bne_self_eq_false, Bool.false_eq_true, ↓reduceIte,
    Bool.not_true]
  cases crane.Pull (target upstream req) with
  | error e => exact Or.inl rfl
  | ok img =>
    obtain ⟨layersResult⟩ := img
    cases layersResult with
    | error e => exact Or.inl rfl
    | ok layers =>
      cases layers with
      | nil => exact Or.inl rfl
      | cons layer0 rest =>
        obtain ⟨compressed⟩ := layer0
        cases compressed with
        | error e => exact Or.inl rfl
        | ok blob => exact Or.inr ⟨blob, rfl⟩

theorem write_pulls (s : State) (p : List Nat) : (s.Write p).1.pulls = s.pulls := by
  unfold State.Write
  by_cases hh : s.w.headers.isEmpty = true
  · cases hr : s.room <;> simp [hh, hr, State.WriteHeader]
  · cases hr : s.room <;> simp [hh, hr]

theorem copy_pulls (s : State) (blob : ReadCloser) : (s.Copy blob).1.pulls = s.pulls := by
  unfold State.Copy
  cases blob.yielded with
  | nil => rfl
  | cons b bs => exact write_pulls s (b :: bs)

/-- After a `WriteHeader`, `io.Copy` appends to the body what the stream
yields, cut to what the connection takes, and writes no further header. -/
theorem copy_after_header (s : State) (code : Nat) (blob : ReadCloser) :
    ((s.WriteHeader code).Copy blob).1.w =
      { headers := s.w.headers ++ [code],
        body := s.w.body ++ delivered s.room blob.yielded } := by
  unfold State.Copy
  cases hy : blob.yielded with
  | nil => cases hr : s.room <;> simp [State.WriteHeader, delivered]
  | cons b bs =>
    cases hr : s.room <;> simp [State.Write, State.WriteHeader, delivered, hr]

/-- Every accepted request makes exactly one pull, for `target upstream req`. -/
theorem serve_accepted_pulls (crane : Registry) (upstream : String) (req : Request)
    (s : State) (hget : req.Method = "GET") (hsuf : suffixCheck req.Path = true) :
    (serve crane upstream req s).pulls = s.pulls ++ [target upstream req] := by
  rcases serve_accepted crane upstream req s hget hsuf with h | ⟨blob, h⟩
  · rw [h]; rfl
  · rw [h, copy_pulls]; rfl

/-- The status of an accepted request on a fresh response is 500 or 200. -/
theorem serve_accepted_status (crane : Registry) (upstream : String) (req : Request)
    (hget : req.Method = "GET") (hsuf : suffixCheck req.Path = true) :
    (serve crane upstream req State.fresh).w.status = some 500 ∨
      (serve crane upstream req State.fresh).w.status = some 200 := by
  rcases serve_accepted crane upstream req State.fresh hget hsuf with h | ⟨blob, h⟩
  · left; rw [h]; rfl
  · right; rw [h, copy_after_header]; rfl

/-- What line 49-52 do: a GET request whose path fails the check of line 49 is
answered with 404 and no pull. -/
theorem serve_not_found (crane : Registry) (upstream : String) (req : Request) (s : State)
    (hget : req.Method = "GET") (hsuf : suffixCheck req.Path = false) :
    serve crane upstream req s = s.WriteHeader StatusNotFound := by
  unfold serve
  simp [hget, hsuf, MethodGet]

/-! ## Facts about the reference and the copy -/

theorem hasSuffix_append_self (p suf : String) : HasSuffix (p ++ suf) suf = true := by
  rw [hasSuffix_iff, String.data_append]
  exact List.suffix_append _ _

theorem trimSuffix_append_self (p suf : String) : TrimSuffix (p ++ suf) suf = p := by
  have h := trimSuffix_append (p ++ suf) suf (hasSuffix_append_self p suf)
  have hd := congrArg String.data h
  rw [String.data_append, String.data_append] at hd
  exact String.ext (List.append_cancel_right hd)

/-- Where lines 61-63 strip exactly one suffix: a path `p ++ ".tar.gz"`, and a
path `p ++ ".tgz"` in which `p` does not end in `.tar.gz` itself. -/
theorem strippedPath_one_suffix (path p : String)
    (hp : path = p ++ ".tar.gz" ∨ (path = p ++ ".tgz" ∧ HasSuffix p ".tar.gz" = false)) :
    strippedPath path = p := by
  show TrimSuffix (TrimSuffix path ".tgz") ".tar.gz" = p
  rcases hp with hp | ⟨hp, hno⟩
  · rw [hp, trimSuffix_of_not _ ".tgz" (not_tgz_of_targz _ (hasSuffix_append_self p ".tar.gz")),
      trimSuffix_append_self]
  · rw [hp, trimSuffix_append_self, trimSuffix_of_not _ _ hno]

/-- The digest form of the reference on the paths from which one suffix is
stripped: a non-empty `sha` parameter wins over every `tag`. -/
theorem target_digest_one_suffix (upstream : String) (req : Request) (p Y : String)
    (hp : req.Path = p ++ ".tar.gz" ∨
      (req.Path = p ++ ".tgz" ∧ HasSuffix p ".tar.gz" = false))
    (hsha : req.Query.Get "sha" = Y) (hY : Y ≠ "") :
    target upstream req = upstream ++ p ++ "@sha:" ++ Y := by
  simp [target, hsha, hY, strippedPath_one_suffix req.Path p hp]

/-- The tag form of the reference on the paths from which one suffix is
stripped: the `tag` parameter when it is non-empty, `latest` otherwise. -/
theorem target_tag_one_suffix (upstream : String) (req : Request) (p X : String)
    (hp : req.Path = p ++ ".tar.gz" ∨
      (req.Path = p ++ ".tgz" ∧ HasSuffix p ".tar.gz" = false))
    (hsha : req.Query.Get "sha" = "") (htag : req.Query.Get "tag" = X) :
    target upstream req = upstream ++ p ++ ":" ++ (if X = "" then "latest" else X) := by
  simp [target, hsha, htag, strippedPath_one_suffix req.Path p hp]

theorem delivered_leading (room : Option Nat) (p : List Nat) : delivered room p <+: p := by
  cases room with
  | none => exact List.prefix_refl p
  | some n => exact List.take_prefix n p

theorem yielded_leading (r : ReadCloser) : r.yielded <+: r.src := by
  unfold ReadCloser.yielded
  cases r.failAfter with
  | none => exact List.prefix_refl r.src
  | some n => exact List.take_prefix n r.src

/-! ## Facts about `basicAuth` -/

/-- With injective digests the two comparisons of lines 119-122 succeed exactly
on the configured pair. -/
theorem credentials_match_iff (Sum256 : String → List Nat)
    (hinj : Function.Injective Sum256) (hbytes : ∀ x, ∀ b ∈ Sum256 x, b < 256)
    (username password u p : String) :
    ((ConstantTimeCompare (Sum256 username) (Sum256 u) == 1 &&
      ConstantTimeCompare (Sum256 password) (Sum256 p) == 1) = true) ↔
      (username = u ∧ password = p) := by
  simp only [Bool.and_eq_true, beq_iff_eq]
  rw [constantTimeCompare_eq_one _ _ (hbytes username) (hbytes u),
    constantTimeCompare_eq_one _ _ (hbytes password) (hbytes p),
    hinj.eq_iff, hinj.eq_iff]

/-- The handler built by `basicAuth` when the gate is enabled. -/
theorem basicAuth_enabled (Sum256 : String → List Nat) (u p : String) (next : HandlerFunc)
    (r : Request) (s : State) (hcfg : ¬(u = "" ∧ p = ""))
    (hinj : Function.Injective Sum256) (hbytes : ∀ x, ∀ b ∈ Sum256 x, b < 256) :
    basicAuth Sum256 u p next r s =
      if r.Auth = Authorization.basic u p then next r s
      else s.WriteHeader StatusUnauthorized := by
  have hoff : (u == "" && p == "") = false := by
    rw [Bool.eq_false_iff]
    intro h
    simp only [Bool.and_eq_true, beq_iff_eq] at h
    exact hcfg h
  unfold basicAuth
  rw [hoff]
  simp only [Bool.false_eq_true, ↓reduceIte]
  cases hauth : r.Auth with
  | missing => simp [Request.BasicAuth, hauth]
  | malformed raw => simp [Request.BasicAuth, hauth]
  | basic username password =>
    simp only [Request.BasicAuth, hauth, ↓reduceIte, Authorization.basic.injEq]
    by_cases hm : username = u ∧ password = p
    · rw [if_pos ((credentials_match_iff Sum256 hinj hbytes username password u p).mpr hm),
        if_pos hm]
    · rw [if_neg (fun h => hm
          ((credentials_match_iff Sum256 hinj hbytes username password u p).mp h)),
        if_neg hm]

/-! ## The claims -/

/-- C1, evaluated on GET `/footar.gz`: the path ends in neither `.tgz` nor
`.tar.gz`, yet it passes the check of line 49 (which tests for `tar.gz`
without the dot), one pull is made for it and the status is not 404, whatever
the registry answers. -/
theorem serve_bare_targz_is_pulled (crane : Registry) :
    HasSuffix "/footar.gz" ".tgz" = false ∧
    HasSuffix "/footar.gz" ".tar.gz" = false ∧
    (serve crane "registry.example.com/repo"
        { Method := "GET", Path := "/footar.gz", Query := [], Auth := .missing }
        State.fresh).pulls = ["registry.example.com/repo/footar.gz:latest"] ∧
    (serve crane "registry.example.com/repo"
        { Method := "GET", Path := "/footar.gz", Query := [], Auth := .missing }
        State.fresh).w.status ≠ some 404 := by
  refine ⟨by decide, by decide, ?_, ?_⟩
  · rw [serve_accepted_pulls crane _ _ _ rfl (by decide)]
    decide
  · rcases serve_accepted_status crane "registry.example.com/repo"
        { Method := "GET", Path := "/footar.gz", Query := [], Auth := .missing }
        rfl (by decide) with h | h
    · rw [h]; decide
    · rw [h]; decide

/-- C2, evaluated on two accepted paths. `/footar.gz` passes the check of line
49 and nothing is stripped from it; `/a.tar.gz.tgz` passes it and both
suffixes are stripped. In neither case is the request path the stripped path
followed by `.tgz` or by `.tar.gz`. -/
theorem strippedPath_not_one_suffix :
    (suffixCheck "/footar.gz" = true ∧
      strippedPath "/footar.gz" = "/footar.gz" ∧
      "/footar.gz" ≠ strippedPath "/footar.gz" ++ ".tgz" ∧
      "/footar.gz" ≠ strippedPath "/footar.gz" ++ ".tar.gz") ∧
    (suffixCheck "/a.tar.gz.tgz" = true ∧
      strippedPath "/a.tar.gz.tgz" = "/a" ∧
      "/a.tar.gz.tgz" ≠ strippedPath "/a.tar.gz.tgz" ++ ".tgz" ∧
      "/a.tar.gz.tgz" ≠ strippedPath "/a.tar.gz.tgz" ++ ".tar.gz") := by
  decide

/-- C3, evaluated on GET `/a.tar.gz.tgz?tag=v1&sha=abc`: the path is
`/a.tar.gz` followed by the recognized suffix `.tgz`, the `sha` parameter is
`abc`, and the one pull that is made is for `.../a@sha:abc`, not for
`.../a.tar.gz@sha:abc`, whatever the registry answers. -/
theorem serve_digest_strips_two_suffixes (crane : Registry) :
    HasSuffix "/a.tar.gz.tgz" ".tgz" = true ∧
    "/a.tar.gz.tgz" = "/a.tar.gz" ++ ".tgz" ∧
    Values.Get [("tag", "v1"), ("sha", "abc")] "sha" = "abc" ∧
    (serve crane "registry.example.com/repo"
        { Method := "GET", Path := "/a.tar.gz.tgz",
          Query := [("tag", "v1"), ("sha", "abc")], Auth := .missing }
        State.fresh).pulls = ["registry.example.com/repo/a@sha:abc"] ∧
    (serve crane "registry.example.com/repo"
        { Method := "GET", Path := "/a.tar.gz.tgz",
          Query := [("tag", "v1"), ("sha", "abc")], Auth := .missing }
        State.fresh).pulls ≠
      ["registry.example.com/repo" ++ "/a.tar.gz" ++ "@sha:" ++ "abc"] := by
  have h := serve_accepted_pulls crane "registry.example.com/repo"
    { Method := "GET", Path := "/a.tar.gz.tgz",
      Query := [("tag", "v1"), ("sha", "abc")], Auth := .missing }
    State.fresh rfl (by decide)
  refine ⟨by decide, by decide, by decide, ?_, ?_⟩
  · rw [h]; decide
  · rw [h]; decide

/-- C4, evaluated on GET `/a.tar.gz.tgz?tag=v1`: the path is `/a.tar.gz`
followed by the recognized suffix `.tgz`, there is no `sha` parameter, the
`tag` parameter is `v1`, and the one pull that is made is for `.../a:v1`, not
for `.../a.tar.gz:v1`, whatever the registry answers. -/
theorem serve_tag_strips_two_suffixes (crane : Registry) :
    HasSuffix "/a.tar.gz.tgz" ".tgz" = true ∧
    "/a.tar.gz.tgz" = "/a.tar.gz" ++ ".tgz" ∧
    Values.Get [("tag", "v1")] "sha" = "" ∧
    Values.Get [("tag", "v1")] "tag" = "v1" ∧
    (serve crane "registry.example.com/repo"
        { Method := "GET", Path := "/a.tar.gz.tgz", Query := [("tag", "v1")],
          Auth := .missing }
        State.fresh).pulls = ["registry.example.com/repo/a:v1"] ∧
    (serve crane "registry.example.com/repo"
        { Method := "GET", Path := "/a.tar.gz.tgz", Query := [("tag", "v1")],
          Auth := .missing }
        State.fresh).pulls ≠
      ["registry.example.com/repo" ++ "/a.tar.gz" ++ ":" ++ "v1"] := by
  have h := serve_accepted_pulls crane "registry.example.com/repo"
    { Method := "GET", Path := "/a.tar.gz.tgz", Query := [("tag", "v1")],
      Auth := .missing }
    State.fresh rfl (by decide)
  refine ⟨by decide, by decide, by decide, by decide, ?_, ?_⟩
  · rw [h]; decide
  · rw [h]; decide

/-- C5: with credentials `(u, p)` that are not both empty and an injective
digest, `basicAuth u p next` hands a request to `next` when its Basic
Authentication header is well formed and carries exactly `u` and `p`; for
every other request (no header, malformed header, another username or
password) the only effect is `WriteHeader(401)`: `next` is not run, nothing is
written to the body, and on a fresh response the status is 401. -/
theorem basicAuth_forwards_iff (Sum256 : String → List Nat) (u p : String)
    (next : HandlerFunc) (r : Request) (s : State)
    (hcfg : ¬(u = "" ∧ p = ""))
    (hinj : Function.Injective Sum256) (hbytes : ∀ x, ∀ b ∈ Sum256 x, b < 256) :
    (r.Auth = Authorization.basic u p →
        basicAuth Sum256 u p next r s = next r s) ∧
      (r.Auth ≠ Authorization.basic u p →
        basicAuth Sum256 u p next r s = s.WriteHeader StatusUnauthorized ∧
        (basicAuth Sum256 u p next r State.fresh).w = { headers := [401], body := [] } ∧
        (basicAuth Sum256 u p next r State.fresh).w.status = some 401 ∧
        (basicAuth Sum256 u p next r State.fresh).pulls = []) := by
  constructor
  · intro h
    rw [basicAuth_enabled Sum256 u p next r s hcfg hinj hbytes, if_pos h]
  · intro h
    have key : ∀ t : State,
        basicAuth Sum256 u p next r t = t.WriteHeader StatusUnauthorized := by
      intro t
      rw [basicAuth_enabled Sum256 u p next r t hcfg hinj hbytes, if_neg h]
    rw [key s, key State.fresh]
    exact ⟨rfl, rfl, rfl, rfl⟩

/-- C5 at credentials `(user, pass)`: the request that sends `(user, wrong)`
is answered 401 by the gate in front of a handler that would answer 200. -/
theorem basicAuth_forwards_iff_witness :
    ¬("user" = "" ∧ "pass" = "") ∧
    Function.Injective sampleSum256 ∧
    (∀ x, ∀ b ∈ sampleSum256 x, b < 256) ∧
    (basicAuth sampleSum256 "user" "pass" (fun _ s => s.WriteHeader StatusOK)
        { Method := "GET", Path := "/foo/bar.tgz", Query := [],
          Auth := .basic "user" "wrong" }
        State.fresh).w = { headers := [401], body := [] } :=
  ⟨by decide, sampleSum256_injective, sampleSum256_bytes,
    ((basicAuth_forwards_iff sampleSum256 "user" "pass" (fun _ s => s.WriteHeader StatusOK)
      { Method := "GET", Path := "/foo/bar.tgz", Query := [],
        Auth := .basic "user" "wrong" }
      State.fresh (by decide) sampleSum256_injective sampleSum256_bytes).2 (by decide)).2.1⟩

/-- C6: with both configured credentials empty, `basicAuth` returns `next`
itself, so every request gets the response of `next`. -/
theorem basicAuth_disabled (Sum256 : String → List Nat) (next : HandlerFunc) :
    basicAuth Sum256 "" "" next = next ∧
      ∀ (r : Request) (s : State), basicAuth Sum256 "" "" next r s = next r s := by
  have h : basicAuth Sum256 "" "" next = next := by
    unfold basicAuth
    simp
  exact ⟨h, fun r s => by rw [h]⟩

/-- C7: a request whose method is not GET gets one `WriteHeader(405)` and
nothing else, whatever its path and query are; no pull is made. -/
theorem serve_method_not_allowed (crane : Registry) (upstream : String) (req : Request)
    (s : State) (hm : req.Method ≠ "GET") :
    serve crane upstream req s = s.WriteHeader StatusMethodNotAllowed ∧
      (serve crane upstream req State.fresh).w = { headers := [405], body := [] } ∧
      (serve crane upstream req State.fresh).w.status = some 405 ∧
      (serve crane upstream req s).pulls = s.pulls := by
  have h : ∀ t : State, serve crane upstream req t = t.WriteHeader StatusMethodNotAllowed := by
    intro t
    unfold serve
    simp [MethodGet, hm]
  rw [h s, h State.fresh]
  exact ⟨rfl, rfl, rfl, rfl⟩

/-- C7 at POST `/foo/bar.zip?tag=v1`, a path without a recognized suffix. -/
theorem serve_method_not_allowed_witness :
    "POST" ≠ "GET" ∧
    (serve twoLayerRegistry "registry.example.com/repo"
        { Method := "POST", Path := "/foo/bar.zip", Query := [("tag", "v1")],
          Auth := .missing }
        State.fresh).w.status = some 405 :=
  ⟨by decide,
    (serve_method_not_allowed twoLayerRegistry "registry.example.com/repo"
      { Method := "POST", Path := "/foo/bar.zip", Query := [("tag", "v1")],
        Auth := .missing }
      State.fresh (by decide)).2.2.1⟩

/-- C8 as stated, refuted on GET `/foo/bar.tgz` against an image whose first
layer has the compressed bytes `31, 139, 8` and a stream that breaks after the
first byte: the pull succeeds, the layer list is not empty, the stream opens,
the status is 200 and the body is `31` alone. -/
theorem serve_broken_stream_sends_less :
    ∃ (img : Image) (layer0 : Layer) (rest : List Layer) (blob : ReadCloser),
      brokenStreamRegistry.Pull (target "registry.example.com/repo"
        { Method := "GET", Path := "/foo/bar.tgz", Query := [], Auth := .missing }) =
          .ok img ∧
      img.Layers = .ok (layer0 :: rest) ∧
      layer0.Compressed = .ok blob ∧
      blob.src = [31, 139, 8] ∧
      (serve brokenStreamRegistry "registry.example.com/repo"
        { Method := "GET", Path := "/foo/bar.tgz", Query := [], Auth := .missing }
        State.fresh).w = { headers := [200], body := [31] } ∧
      (serve brokenStreamRegistry "registry.example.com/repo"
        { Method := "GET", Path := "/foo/bar.tgz", Query := [], Auth := .missing }
        State.fresh).w.body ≠ blob.src :=
  ⟨{ Layers := .ok [{ Compressed := .ok { src := [31, 139, 8], failAfter := some 1 } }] },
    { Compressed := .ok { src := [31, 139, 8], failAfter := some 1 } }, [],
    { src := [31, 139, 8], failAfter := some 1 },
    rfl, rfl, rfl, rfl, by decide, by decide⟩

/-- C8, amended: for a GET request with a recognized suffix, when the pull
succeeds, the layer list is `layer0 :: rest` and the compressed stream `blob`
of `layer0` opens, the response is `WriteHeader(200)` followed by a body that
holds the bytes read from `blob` before its first read error, cut to what the
client connection takes; this is a leading part of the compressed bytes of
`layer0`, and all of them when the stream is read to its end and the client
stays connected. `rest` has no influence on it. -/
theorem serve_streams_first_layer (crane : Registry) (upstream : String) (req : Request)
    (img : Image) (layer0 : Layer) (rest : List Layer) (blob : ReadCloser)
    (room : Option Nat)
    (hget : req.Method = "GET")
    (hsuf : HasSuffix req.Path ".tgz" = true ∨ HasSuffix req.Path ".tar.gz" = true)
    (hpull : crane.Pull (target upstream req) = .ok img)
    (hlayers : img.Layers = .ok (layer0 :: rest))
    (hblob : layer0.Compressed = .ok blob) :
    (serve crane upstream req { State.fresh with room := room }).w =
        { headers := [200], body := delivered room blob.yielded } ∧
      (serve crane upstream req { State.fresh with room := room }).w.status = some 200 ∧
      (serve crane upstream req { State.fresh with room := room }).w.body <+: blob.src ∧
      (blob.failAfter = none → room = none →
        (serve crane upstream req { State.fresh with room := room }).w =
          { headers := [200], body := blob.src }) := by
  have h : serve crane upstream req { State.fresh with room := room } =
      ((({ State.fresh with room := room,
                            pulls := State.fresh.pulls ++ [target upstream req] } :
        State).WriteHeader StatusOK).Copy blob).1 := by
    unfold serve
    simp only [hget, suffixCheck_of_recognized req.Path hsuf, MethodGet, bne_self_eq_false,
      Bool.false_eq_true, ↓reduceIte, Bool.not_true, hpull, hlayers, hblob]
  have hw : (serve crane upstream req { State.fresh with room := room }).w =
      { headers := [200], body := delivered room blob.yielded } := by
    rw [h, copy_after_header]
    rfl
  refine ⟨hw, ?_, ?_, ?_⟩
  · rw [hw]; rfl
  · rw [hw]
    exact (delivered_leading room blob.yielded).trans (yielded_leading blob)
  · intro hf hr
    rw [hw, hr]
    simp [delivered, ReadCloser.yielded, hf]

/-- C8 at GET `/foo/bar.tgz` against an image with two layers that are read to
their end, for a client that stays connected: the body is the first layer. -/
theorem serve_streams_first_layer_witness :
    ("GET" = "GET") ∧
    (HasSuffix "/foo/bar.tgz" ".tgz" = true ∨ HasSuffix "/foo/bar.tgz" ".tar.gz" = true) ∧
    (serve twoLayerRegistry "registry.example.com/repo"
        { Method := "GET", Path := "/foo/bar.tgz", Query := [], Auth := .missing }
        { State.fresh with room := none }).w = { headers := [200], body := [31, 139, 8] } :=
  ⟨rfl, Or.inl (by decide),
    (serve_streams_first_layer twoLayerRegistry "registry.example.com/repo"
      { Method := "GET", Path := "/foo/bar.tgz", Query := [], Auth := .missing }
      { Layers := .ok [
          { Compressed := .ok { src := [31, 139, 8], failAfter := none } },
          { Compressed := .ok { src := [7, 7], failAfter := none } }] }
      { Compressed := .ok { src := [31, 139, 8], failAfter := none } }
      [{ Compressed := .ok { src := [7, 7], failAfter := none } }]
      { src := [31, 139, 8], failAfter := none } none
      rfl (Or.inl (by decide)) rfl rfl rfl).2.2.2 rfl rfl⟩

/-- C9: for a GET request with a recognized suffix, when the pull fails, or
the layer listing fails, or the image has no layers, or the compressed stream
of the first layer does not open, the response is one `WriteHeader(500)` with
an empty body; 200 is never passed to `WriteHeader`. -/
theorem serve_upstream_failure (crane : Registry) (upstream : String) (req : Request)
    (hget : req.Method = "GET")
    (hsuf : HasSuffix req.Path ".tgz" = true ∨ HasSuffix req.Path ".tar.gz" = true)
    (hfail :
      (∃ e, crane.Pull (target upstream req) = .error e) ∨
      (∃ img e, crane.Pull (target upstream req) = .ok img ∧ img.Layers = .error e) ∨
      (∃ img, crane.Pull (target upstream req) = .ok img ∧ img.Layers = .ok []) ∨
      (∃ img layer0 rest e, crane.Pull (target upstream req) = .ok img ∧
        img.Layers = .ok (layer0 :: rest) ∧ layer0.Compressed = .error e)) :
    (serve crane upstream req State.fresh).w = { headers := [500], body := [] } ∧
      (serve crane upstream req State.fresh).w.status = some 500 ∧
      200 ∉ (serve crane upstream req State.fresh).w.headers := by
  have h : serve crane upstream req State.fresh =
      ({ State.fresh with pulls := State.fresh.pulls ++ [target upstream req] } :
        State).WriteHeader StatusInternalServerError := by
    unfold serve
    simp only [hget, suffixCheck_of_recognized req.Path hsuf, MethodGet, bne_self_eq_false,
      Bool.false_eq_true, ↓reduceIte, Bool.not_true]
    rcases hfail with ⟨e, h1⟩ | ⟨img, e, h1, h2⟩ | ⟨img, h1, h2⟩ | ⟨img, layer0, rest, e, h1, h2, h3⟩
    · simp only [h1]
    · simp only [h1, h2]
    · simp only [h1, h2]
    · simp only [h1, h2, h3]
  rw [h]
  refine ⟨rfl, rfl, ?_⟩
  show 200 ∉ ([] ++ [500] : List Nat)
  decide

/-- C9 at GET `/foo/bar.tgz` against an image without layers. -/
theorem serve_upstream_failure_witness :
    ("GET" = "GET") ∧
    (HasSuffix "/foo/bar.tgz" ".tgz" = true ∨ HasSuffix "/foo/bar.tgz" ".tar.gz" = true) ∧
    (∃ img, noLayerRegistry.Pull (target "registry.example.com/repo"
        { Method := "GET", Path := "/foo/bar.tgz", Query := [], Auth := .missing }) = .ok img ∧
      img.Layers = .ok []) ∧
    (serve noLayerRegistry "registry.example.com/repo"
        { Method := "GET", Path := "/foo/bar.tgz", Query := [], Auth := .missing }
        State.fresh).w = { headers := [500], body := [] } :=
  ⟨rfl, Or.inl (by decide), ⟨{ Layers := .ok [] }, rfl, rfl⟩,
    (serve_upstream_failure noLayerRegistry "registry.example.com/repo"
      { Method := "GET", Path := "/foo/bar.tgz", Query := [], Auth := .missing }
      rfl (Or.inl (by decide))
      (Or.inr (Or.inr (Or.inl ⟨{ Layers := .ok [] }, rfl, rfl⟩)))).1⟩

/-- C10: for the handler of `main`, `basicAuth u p (serve upstream)` with
`(u, p)` not both empty and an injective digest, a request whose Basic
Authentication header is not the well-formed pair `(u, p)` gets one
`WriteHeader(401)` and nothing else, whatever its method, path and query are;
no pull is made. -/
theorem handler_rejects_before_serve (Sum256 : String → List Nat) (crane : Registry)
    (u p upstream : String) (r : Request) (s : State)
    (hcfg : ¬(u = "" ∧ p = ""))
    (hinj : Function.Injective Sum256) (hbytes : ∀ x, ∀ b ∈ Sum256 x, b < 256)
    (hbad : r.Auth ≠ Authorization.basic u p) :
    handler Sum256 crane u p upstream r s = s.WriteHeader StatusUnauthorized ∧
      (handler Sum256 crane u p upstream r State.fresh).w =
        { headers := [401], body := [] } ∧
      (handler Sum256 crane u p upstream r State.fresh).w.status = some 401 ∧
      (handler Sum256 crane u p upstream r s).pulls = s.pulls := by
  have key : ∀ t : State,
      handler Sum256 crane u p upstream r t = t.WriteHeader StatusUnauthorized := by
    intro t
    unfold handler
    rw [basicAuth_enabled Sum256 u p (serve crane upstream) r t hcfg hinj hbytes,
      if_neg hbad]
  rw [key s, key State.fresh]
  exact ⟨rfl, rfl, rfl, rfl⟩

/-- C10 with only the username configured, `(admin, "")`: a POST to a path
without a recognized suffix and without an `Authorization` header gets 401,
not 405 or 404. -/
theorem handler_rejects_before_serve_witness :
    ¬("admin" = "" ∧ "" = "") ∧
    Function.Injective sampleSum256 ∧
    (∀ x, ∀ b ∈ sampleSum256 x, b < 256) ∧
    Authorization.missing ≠ Authorization.basic "admin" "" ∧
    (handler sampleSum256 twoLayerRegistry "admin" "" "registry.example.com/repo"
        { Method := "POST", Path := "/foo/bar.zip", Query := [], Auth := .missing }
        State.fresh).w = { headers := [401], body := [] } :=
  ⟨by decide, sampleSum256_injective, sampleSum256_bytes, by decide,
    (handler_rejects_before_serve sampleSum256 twoLayerRegistry "admin" ""
      "registry.example.com/repo"
      { Method := "POST", Path := "/foo/bar.zip", Query := [], Auth := .missing }
      State.fresh (by decide) sampleSum256_injective sampleSum256_bytes (by decide)).2.1⟩

end H2oci
